import Mathlib

set_option maxHeartbeats 1000000
set_option maxRecDepth 8000

/-!
Shallow embedding of `src/index.js` of the npm-auditor package.

The file models:
- `filterTree` (lines 54-63): recursive projection of a parsed lock tree
  onto the canonical field set `LOCKED_DEPENDENCIES_REQUIRED_PROPERTIES`;
- `getNpmLockDependencies` / `getAllDependencies` (lines 65-77): the
  lock-source fallback chain;
- `getAuditData`'s `requires` merge (line 88);
- `scanInstalledDependencies` (lines 111-192): the installed-tree scanner
  with its memoization cache, dev flag and classification rules.

JavaScript objects are modelled as association lists preserving key
insertion order (which JS objects guarantee for string keys).  Promise
rejections and thrown errors are modelled with `Except`.  The scanner's
unbounded recursion is modelled with a fuel parameter; running out of fuel
is a distinguished error `ScanErr.fuelOut` that real executions of the JS
code never exhibit unless the resolution graph is cyclic.
-/

namespace NpmAuditor

/-- A JavaScript value as it occurs in parsed lock-file nodes: strings,
booleans, `undefined`, and plain objects.  Lock nodes may carry arbitrary
extra fields with such values. -/
inductive JVal where
  | str : String → JVal
  | jbool : Bool → JVal
  | undef : JVal
  | obj : List (String × JVal) → JVal

/-- A raw lock-tree node (the value of one key of a `dependencies` object
of a parsed lock file).  `fields` are the node's own properties other than
`dependencies`; the `dependencies` property, when present on the JS
object, is modelled by the second component (`some l`, where `some []`
models a present-but-empty object, which is truthy in JS, and `none`
models an absent or otherwise falsy value). -/
inductive RawNode where
  | mk : List (String × JVal) → Option (List (String × RawNode)) → RawNode

/-- Field list of a raw node. -/
def RawNode.fields : RawNode → List (String × JVal)
  | .mk fs _ => fs

/-- Dependencies component of a raw node. -/
def RawNode.deps : RawNode → Option (List (String × RawNode))
  | .mk _ d => d

/-- Line 21 of src/index.js: `['version', 'dev', 'requires', 'integrity']`. -/
def LOCKED_DEPENDENCIES_REQUIRED_PROPERTIES : List String :=
  ["version", "dev", "requires", "integrity"]

/-- Line 22 of src/index.js: the list above with `'dependencies'` appended. -/
def LOCKED_DEPENDENCIES_REQUIRED_PROPERTIES_WITH_DEPS : List String :=
  LOCKED_DEPENDENCIES_REQUIRED_PROPERTIES ++ ["dependencies"]

/-- Lodash `pick(packageInfo, LOCKED_DEPENDENCIES_REQUIRED_PROPERTIES)`
(line 56): iterate the property list and keep each property that exists on
the object, in property-list order. -/
def pickFields (fs : List (String × JVal)) : List (String × JVal) :=
  LOCKED_DEPENDENCIES_REQUIRED_PROPERTIES.filterMap
    (fun p => (fs.lookup p).map (fun v => (p, v)))

mutual

/-- Body of the `mapValues` callback of `filterTree` (lines 55-61): pick
the four scalar canonical fields, and copy a recursively filtered
`dependencies` over whenever the input's `dependencies` is truthy. -/
def filterNode : RawNode → RawNode
  | .mk fs none => .mk (pickFields fs) none
  | .mk fs (some deps) => .mk (pickFields fs) (some (filterTree deps))

/-- `filterTree` (lines 54-63): `mapValues` of `filterNode` over the tree,
preserving keys and their order. -/
def filterTree : List (String × RawNode) → List (String × RawNode)
  | [] => []
  | (name, node) :: rest => (name, filterNode node) :: filterTree rest

end

mutual

/-- Recursive check that a node carries, at every depth, only fields from
the canonical set (the four scalar properties plus `dependencies`, which
in this model is the separate second component of `RawNode.mk`). -/
def goodNode : RawNode → Bool
  | .mk fs none =>
      fs.all (fun p => LOCKED_DEPENDENCIES_REQUIRED_PROPERTIES_WITH_DEPS.contains p.1)
  | .mk fs (some deps) =>
      fs.all (fun p => LOCKED_DEPENDENCIES_REQUIRED_PROPERTIES_WITH_DEPS.contains p.1) &&
        goodTree deps

/-- `goodNode` for every node of a tree. -/
def goodTree : List (String × RawNode) → Bool
  | [] => true
  | (_, node) :: rest => goodNode node && goodTree rest

end

/-- Skeleton of a dependency tree: which nodes have a `dependencies`
property and with which keys, ignoring all other fields. -/
inductive DepShape where
  | mk : Option (List (String × DepShape)) → DepShape

mutual

/-- Dependencies skeleton of a node. -/
def shapeOfNode : RawNode → DepShape
  | .mk _ none => .mk none
  | .mk _ (some deps) => .mk (some (shapeOfTree deps))

/-- Dependencies skeleton of a tree. -/
def shapeOfTree : List (String × RawNode) → List (String × DepShape)
  | [] => []
  | (name, node) :: rest => (name, shapeOfNode node) :: shapeOfTree rest

end

/-- A parsed `package.json` as the scanner reads it: `version`,
`_integrity` (here `integrity`), and the `dependencies` /
`devDependencies` objects.  `some []` models a present-but-empty (truthy)
object, `none` an absent field. -/
structure Manifest where
  version : Option String
  integrity : Option String
  dependencies : Option (List (String × String))
  devDependencies : Option (List (String × String))

/-- The environment of one `scanInstalledDependencies` call: the project
directory (`path.dirname(packageJsonPath)`, line 113), the module
resolution capability (`resolveFrom(dir, name + "/package.json")`, line
128; `none` models a resolution failure, which throws in JS), the mapping
from manifest paths to parsed manifests (`require(path)`, line 138;
`none` models a missing or unparsable manifest), and the project's own
parsed manifest (line 115). -/
structure ScanEnv where
  projDir : String
  resolve : String → String → Option String
  manifest : String → Option Manifest
  projManifest : Manifest

/-- A canonical package record: the result of
`pick(info, LOCKED_DEPENDENCIES_REQUIRED_PROPERTIES_WITH_DEPS)` (lines
155, 157, 159).  The five components are `version`, `dev` (`true` models
a present `dev: true` key, `false` an absent key), `requires`,
`dependencies` and `integrity`; `version` and `integrity` use `none` for
a JS `undefined` value. -/
inductive PackageRecord where
  | mk : Option String → Bool → Option (List (String × Option String)) →
      Option (List (String × PackageRecord)) → Option String → PackageRecord

/-- Version component of a record. -/
def PackageRecord.version : PackageRecord → Option String
  | .mk v _ _ _ _ => v

/-- Dev component of a record. -/
def PackageRecord.dev : PackageRecord → Bool
  | .mk _ d _ _ _ => d

/-- Requires component of a record. -/
def PackageRecord.requires : PackageRecord → Option (List (String × Option String))
  | .mk _ _ r _ _ => r

/-- Dependencies component of a record. -/
def PackageRecord.dependencies : PackageRecord → Option (List (String × PackageRecord))
  | .mk _ _ _ d _ => d

/-- Integrity component of a record. -/
def PackageRecord.integrity : PackageRecord → Option String
  | .mk _ _ _ _ i => i

/-- The `depPackageInfo` object built by `collectDepPackageInfo` (lines
167-182): a package record together with the `packageDir` property used
for classification. -/
structure DepInfo where
  packageDir : String
  version : Option String
  integrity : Option String
  dev : Bool
  requires : Option (List (String × Option String))
  dependencies : Option (List (String × PackageRecord))

/-- `pick(subDepInfo, LOCKED_DEPENDENCIES_REQUIRED_PROPERTIES_WITH_DEPS)`:
all properties of a `DepInfo` except `packageDir`. -/
def pickDepInfo (i : DepInfo) : PackageRecord :=
  .mk i.version i.dev i.requires i.dependencies i.integrity

/-- The mutable state of one scan: `topLevelDeps` (line 122) and
`packageCache` (line 123), plus a ghost log recording, in order, the
manifest paths for which `collectDepPackageInfo` was invoked (used to
state the memoization property; it does not influence any result). -/
structure ScanState where
  topLevelDeps : List (String × PackageRecord)
  cache : List (String × DepInfo)
  collectLog : List String

/-- The empty initial state of a scan. -/
def initScanState : ScanState := ⟨[], [], []⟩

/-- Failure modes of the scanner.  `resolveFailed` models a
`resolve-from` throw, `manifestMissing` a `require` throw,
`keysOfUndefined` the `Object.keys(undefined)` TypeError thrown on lines
185/189 when the project manifest lacks the corresponding field, and
`fuelOut` exhaustion of the recursion fuel (which real JS executions hit
only as non-termination on cyclic resolution graphs). -/
inductive ScanErr where
  | resolveFailed : String → String → ScanErr
  | manifestMissing : String → ScanErr
  | keysOfUndefined : String → ScanErr
  | fuelOut : ScanErr

/-- `path.dirname` for the absolute slash-separated manifest paths the
scanner works with: everything before the last `/`. -/
def dirname (p : String) : String :=
  ⟨(((p.toList.reverse).dropWhile (fun c => !(c == '/'))).drop 1).reverse⟩

/-- JS `a.indexOf(b) === 0`: `b` is a string prefix of `a` (arguments
here are `(b, a)`). -/
def strIsPre (b a : String) : Bool := List.isPrefixOf b.toList a.toList

/-- Helper for substring search over character lists. -/
def containsSeg : List Char → List Char → Bool
  | [], needle => needle.isEmpty
  | c :: t, needle => List.isPrefixOf needle (c :: t) || containsSeg t needle

/-- JS `hay.indexOf(needle) >= 0`: `needle` occurs somewhere in `hay`. -/
def strContains (hay needle : String) : Bool := containsSeg hay.toList needle.toList

/-- `isTopLevelDep` (lines 117-118): the dependency's directory does not
contain the project directory as a substring, or its parent directory is
the project's `node_modules` directory. -/
def isTopLevelDep (E : ScanEnv) (depPackageDir : String) : Bool :=
  !(strContains depPackageDir E.projDir) ||
    (dirname depPackageDir == E.projDir ++ "/node_modules")

/-- `isLocalDep` (line 120): the dependency's directory starts with the
parent package's directory. -/
def isLocalDep (depPackageDir parentPackageDir : String) : Bool :=
  strIsPre parentPackageDir depPackageDir

/-- One iteration of the classification loop (lines 151-161) for child
`subDep` with resolved info `info`: given the parent's accumulated local
`dependencies` object `acc` and the current `topLevelDeps` object `tl`,
return both updated. -/
def classifyOne (E : ScanEnv) (depPackageDir : String)
    (acc tl : List (String × PackageRecord)) (subDep : String) (info : DepInfo) :
    List (String × PackageRecord) × List (String × PackageRecord) :=
  if isLocalDep info.packageDir depPackageDir then
    (acc ++ [(subDep, pickDepInfo info)], tl)
  else if isTopLevelDep E info.packageDir && (tl.lookup subDep).isNone then
    (acc, tl ++ [(subDep, pickDepInfo info)])
  else if strIsPre E.projDir info.packageDir then
    (acc ++ [(subDep, pickDepInfo info)], tl)
  else
    (acc, tl)

/-- The whole classification loop (lines 151-161), iterating
`classifyOne` over the resolved sub-dependencies in key order. -/
def classifySubDeps (E : ScanEnv) (depPackageDir : String)
    (subInfos : List (String × DepInfo))
    (acc tl : List (String × PackageRecord)) :
    List (String × PackageRecord) × List (String × PackageRecord) :=
  match subInfos with
  | [] => (acc, tl)
  | (n, i) :: rest =>
    let p := classifyOne E depPackageDir acc tl n i
    classifySubDeps E depPackageDir rest p.1 p.2

mutual

/-- `getDepPackageInfo` (lines 127-134): resolve the dependency's
manifest path from the parent directory, return the cached info if the
path was already resolved, and otherwise collect it and store the result
in the cache.  `depsProp` is always `'dependencies'` at every call site
of the source, so it is not modelled.  Fuel decreases on every call;
`fuelOut` stands for JS non-termination. -/
def getDepPackageInfo (E : ScanEnv) (dev : Bool) :
    Nat → String → String → ScanState → Except ScanErr (DepInfo × ScanState)
  | 0, _, _, _ => .error .fuelOut
  | fuel + 1, parentPackageDir, packageName, s =>
    match E.resolve parentPackageDir packageName with
    | none => .error (.resolveFailed parentPackageDir packageName)
    | some depPackageJsonPath =>
      match s.cache.lookup depPackageJsonPath with
      | some info => .ok (info, s)
      | none =>
        match collectDepPackageInfo E dev fuel depPackageJsonPath s with
        | .error e => .error e
        | .ok (info, s1) =>
          .ok (info, { s1 with cache := s1.cache ++ [(depPackageJsonPath, info)] })

/-- `collectDepPackageInfo` (lines 136-183): read the manifest, resolve
every declared sub-dependency in key order, build the `requires` map from
the resolved versions, run the classification loop against the current
`topLevelDeps`, null out an empty local `dependencies` object, and build
the `DepInfo` with `dev: true` exactly when the dev flag is raised. -/
def collectDepPackageInfo (E : ScanEnv) (dev : Bool) :
    Nat → String → ScanState → Except ScanErr (DepInfo × ScanState)
  | 0, _, _ => .error .fuelOut
  | fuel + 1, depPackageJsonPath, s =>
    match E.manifest depPackageJsonPath with
    | none => .error (.manifestMissing depPackageJsonPath)
    | some m =>
      let depPackageDir := dirname depPackageJsonPath
      let s0 : ScanState := { s with collectLog := s.collectLog ++ [depPackageJsonPath] }
      match m.dependencies with
      | none => .ok (⟨depPackageDir, m.version, m.integrity, dev, none, none⟩, s0)
      | some subDepList =>
        match resolveSubDeps E dev fuel depPackageDir (subDepList.map Prod.fst) s0 with
        | .error e => .error e
        | .ok (subInfos, s1) =>
          let requiresMap := subInfos.map (fun p => (p.1, p.2.version))
          let cl := classifySubDeps E depPackageDir subInfos [] s1.topLevelDeps
          let depsOpt := if cl.1.isEmpty then none else some cl.1
          .ok (⟨depPackageDir, m.version, m.integrity, dev, some requiresMap, depsOpt⟩,
               { s1 with topLevelDeps := cl.2 })

/-- The `mapValues` of line 145: resolve each declared sub-dependency, in
key order, threading the scan state, and pair each name with its
resolved `DepInfo`. -/
def resolveSubDeps (E : ScanEnv) (dev : Bool) :
    Nat → String → List String → ScanState →
      Except ScanErr (List (String × DepInfo) × ScanState)
  | 0, _, _, _ => .error .fuelOut
  | fuel + 1, depPackageDir, names, s =>
    match names with
    | [] => .ok ([], s)
    | n :: rest =>
      match getDepPackageInfo E dev fuel depPackageDir n s with
      | .error e => .error e
      | .ok (info, s1) =>
        match resolveSubDeps E dev fuel depPackageDir rest s1 with
        | .error e => .error e
        | .ok (infos, s2) => .ok ((n, info) :: infos, s2)

end

/-- One `forEach` of lines 185/189: resolve each name of the project
manifest's dependency object from the project directory, discarding the
returned info (only the side effects on the state remain). -/
def scanPhase (E : ScanEnv) (dev : Bool) (fuel : Nat) :
    List String → ScanState → Except ScanErr ScanState
  | [], s => .ok s
  | n :: rest, s =>
    match getDepPackageInfo E dev fuel E.projDir n s with
    | .error e => .error e
    | .ok (_, s1) => scanPhase E dev fuel rest s1

/-- The body of `scanInstalledDependencies` (lines 111-191) up to the
final `return`: run the production phase over
`Object.keys(packageJson.dependencies)` with the dev flag down, then the
development phase over `Object.keys(packageJson.devDependencies)` with
the dev flag raised, starting from the production phase's final state.
`Object.keys` of an absent field throws a TypeError, modelled by
`keysOfUndefined`.  Returns the full final state. -/
def runScan (E : ScanEnv) (fuel : Nat) : Except ScanErr ScanState :=
  match E.projManifest.dependencies with
  | none => .error (.keysOfUndefined "dependencies")
  | some deps =>
    match scanPhase E false fuel (deps.map Prod.fst) initScanState with
    | .error e => .error e
    | .ok s1 =>
      match E.projManifest.devDependencies with
      | none => .error (.keysOfUndefined "devDependencies")
      | some ddeps =>
        match scanPhase E true fuel (ddeps.map Prod.fst) s1 with
        | .error e => .error e
        | .ok s2 => .ok s2

/-- `scanInstalledDependencies` (lines 111-192): the value of the
`topLevelDeps` object after both phases. -/
def scanInstalledDependencies (E : ScanEnv) (fuel : Nat) :
    Except ScanErr (List (String × PackageRecord)) :=
  match runScan E fuel with
  | .error e => .error e
  | .ok s => .ok s.topLevelDeps

/-- Tests whether a scan outcome is the fuel-exhaustion marker, i.e.
whether the modelled JS execution would not have terminated. -/
def isFuelOut {α : Type} : Except ScanErr α → Bool
  | .error .fuelOut => true
  | _ => false

/-- Renders an `Option String` value of a record as the JS value it is:
the string itself, or `undefined`. -/
def jvalOfOpt : Option String → JVal
  | some s => .str s
  | none => .undef

mutual

/-- The plain JS object a `PackageRecord` is: `version` and `integrity`
keys are always present (possibly `undefined`), `dev` is present with
value `true` exactly when set, `requires` and `dependencies` are present
exactly when non-null — matching how `collectDepPackageInfo` (lines
167-180) builds the object and how `pick` copies it.  Used to compare
scanner output with lock-tree output, which are both plain objects in
JS. -/
def recToRaw : PackageRecord → RawNode
  | .mk v dev req deps integ =>
    .mk ([("version", jvalOfOpt v)] ++
         (if dev then [("dev", JVal.jbool true)] else []) ++
         (match req with
          | some r => [("requires", JVal.obj (r.map (fun p => (p.1, jvalOfOpt p.2))))]
          | none => []) ++
         [("integrity", jvalOfOpt integ)])
        (match deps with
         | some ch => some (recTreeToRaw ch)
         | none => none)

/-- `recToRaw` over a whole tree, preserving keys and order. -/
def recTreeToRaw : List (String × PackageRecord) → List (String × RawNode)
  | [] => []
  | (n, r) :: rest => (n, recToRaw r) :: recTreeToRaw rest

end

/-- The environment of one `getAllDependencies` call: for each lock-file
name, `none` models a failed read or parse (a rejected
`readFile`/`JSON.parse`, line 66-67), and `some d` a successfully parsed
file whose root `dependencies` field is `d` (`none` inner value: the
parsed JSON has no `dependencies` field, in which case lodash
`mapValues(undefined)` yields `{}`).  `scanOutcome` is the outcome of
`module.exports.scanInstalledDependencies()` (line 73) in the same
environment. -/
structure AuditEnv where
  lockFile : String → Option (Option (List (String × RawNode)))
  scanOutcome : Except ScanErr (List (String × PackageRecord))

/-- `getNpmLockDependencies` (lines 65-68): read and parse the named lock
file and filter its `dependencies` tree; `none` is a rejected promise. -/
def getNpmLockDependencies (A : AuditEnv) (lockFileName : String) :
    Option (List (String × RawNode)) :=
  match A.lockFile lockFileName with
  | none => none
  | some d => some (filterTree (d.getD []))

/-- The message of the error thrown on line 75 when every source of
locked dependencies has failed. -/
def lockErrorMessage : String :=
  "Failed to get locked dependencies from package-lock.json or npm-shrinkwrap.json!"

/-- `getAllDependencies` (lines 70-77): try `package-lock.json`, on
failure `npm-shrinkwrap.json`, on failure the installed-tree scanner, and
on failure of all three reject with the single error message of line 75.
The scanner's tree of package records is the same plain JS object tree as
a filtered lock tree, rendered here through `recTreeToRaw`. -/
def getAllDependencies (A : AuditEnv) : Except String (List (String × RawNode)) :=
  match getNpmLockDependencies A "package-lock.json" with
  | some t => .ok t
  | none =>
    match getNpmLockDependencies A "npm-shrinkwrap.json" with
    | some t => .ok t
    | none =>
      match A.scanOutcome with
      | .ok tree => .ok (recTreeToRaw tree)
      | .error _ => .error lockErrorMessage

/-- One property assignment of `Object.assign` onto a JS object modelled
as an association list: an existing key is overwritten in place, a new
key is appended. -/
def assignOne (obj : List (String × String)) (kv : String × String) :
    List (String × String) :=
  if (obj.lookup kv.1).isSome then
    obj.map (fun p => if p.1 == kv.1 then (p.1, kv.2) else p)
  else
    obj ++ [kv]

/-- `Object.assign({}, base, update)`: copy `base`, then assign every
property of `update` in order. -/
def objectAssign (base update : List (String × String)) : List (String × String) :=
  update.foldl assignOne base

/-- The `requires` field built by `getAuditData` (line 88):
`Object.assign({}, packageJson.devDependencies, packageJson.dependencies)`.
`Object.assign` skips an `undefined` source, hence the `getD []`. -/
def auditRequires (devDependencies dependencies : Option (List (String × String))) :
    List (String × String) :=
  objectAssign (devDependencies.getD []) (dependencies.getD [])

/-- The key list of the JS object a `PackageRecord` is (`Object.keys` of
`recToRaw`): `version` and `integrity` always, `dev`, `requires` and
`dependencies` when present. -/
def recFieldNames (r : PackageRecord) : List String :=
  ((recToRaw r).fields.map Prod.fst) ++
    (match (recToRaw r).deps with
     | some _ => ["dependencies"]
     | none => [])

mutual

/-- Recursive check that a package record and all records nested in its
`dependencies` carry only keys from the canonical five-field set. -/
def goodRec : PackageRecord → Bool
  | .mk v dev req none integ =>
    (recFieldNames (.mk v dev req none integ)).all
      (fun n => LOCKED_DEPENDENCIES_REQUIRED_PROPERTIES_WITH_DEPS.contains n)
  | .mk v dev req (some ch) integ =>
    (recFieldNames (.mk v dev req (some ch) integ)).all
      (fun n => LOCKED_DEPENDENCIES_REQUIRED_PROPERTIES_WITH_DEPS.contains n) &&
      goodRecTree ch

/-- `goodRec` for every record of a tree. -/
def goodRecTree : List (String × PackageRecord) → Bool
  | [] => true
  | (_, r) :: rest => goodRec r && goodRecTree rest

end

/-- Manifest path of `left-pad` in the end-to-end scenario layout. -/
def lpPath : String := "/proj/node_modules/left-pad/package.json"

/-- The end-to-end scenario layout: the project declares exactly the
production dependency `left-pad`, which resolves at the shared dependency
root to version `1.3.0` with integrity `sha1-abc` and no dependencies of
its own; the project manifest has no `devDependencies` field. -/
def scanEnvLeftPad : ScanEnv where
  projDir := "/proj"
  resolve := fun dir name =>
    if dir == "/proj" && name == "left-pad" then some lpPath else none
  manifest := fun p =>
    if p == lpPath then some ⟨some "1.3.0", some "sha1-abc", none, none⟩ else none
  projManifest := ⟨some "1.0.0", none, some [("left-pad", "^1.0.0")], none⟩

/-- The same layout with an explicit empty `devDependencies` object on
the project manifest, so that line 189 does not throw. -/
def scanEnvLeftPadDevEmpty : ScanEnv :=
  { scanEnvLeftPad with
      projManifest := ⟨some "1.0.0", none, some [("left-pad", "^1.0.0")], some []⟩ }

/-- Manifest path of package `A` under the shared root of `/proj`. -/
def pathA : String := "/proj/node_modules/A/package.json"

/-- Manifest path of package `B` under the shared root of `/proj`. -/
def pathB : String := "/proj/node_modules/B/package.json"

/-- Manifest path of package `C` under the shared root of `/proj`. -/
def pathC : String := "/proj/node_modules/C/package.json"

/-- Manifest path of package `X` under the shared root of `/proj`. -/
def pathX : String := "/proj/node_modules/X/package.json"

/-- Layout for the classification scenario: the project declares `A`;
`A` depends on `B`; `B` depends on `C` and `X`; `X` depends on `C`; all
four packages are installed directly under the shared root
`/proj/node_modules`. -/
def classifyEnv : ScanEnv where
  projDir := "/proj"
  resolve := fun dir name =>
    if dir == "/proj" && name == "A" then some pathA
    else if dir == "/proj/node_modules/A" && name == "B" then some pathB
    else if dir == "/proj/node_modules/B" && name == "C" then some pathC
    else if dir == "/proj/node_modules/B" && name == "X" then some pathX
    else if dir == "/proj/node_modules/X" && name == "C" then some pathC
    else none
  manifest := fun p =>
    if p == pathA then some ⟨some "1.0.0", some "sha-A", some [("B", "^1.0.0")], none⟩
    else if p == pathB then
      some ⟨some "2.0.0", some "sha-B", some [("C", "^1.0.0"), ("X", "^1.0.0")], none⟩
    else if p == pathC then some ⟨some "3.0.0", some "sha-C", none, none⟩
    else if p == pathX then some ⟨some "4.0.0", some "sha-X", some [("C", "^1.0.0")], none⟩
    else none
  projManifest := ⟨some "0.1.0", none, some [("A", "^1.0.0")], some []⟩

/-- Layout for the diamond scenario: the project declares `A` and `B`,
each of which depends on the shared package `C`, and `C` resolves to the
same physical install for both. -/
def diamondEnv : ScanEnv where
  projDir := "/proj"
  resolve := fun dir name =>
    if dir == "/proj" && name == "A" then some pathA
    else if dir == "/proj" && name == "B" then some pathB
    else if dir == "/proj/node_modules/A" && name == "C" then some pathC
    else if dir == "/proj/node_modules/B" && name == "C" then some pathC
    else none
  manifest := fun p =>
    if p == pathA then some ⟨some "1.0.0", some "sha-A", some [("C", "^1.0.0")], none⟩
    else if p == pathB then some ⟨some "2.0.0", some "sha-B", some [("C", "^1.0.0")], none⟩
    else if p == pathC then some ⟨some "3.0.0", some "sha-C", none, none⟩
    else none
  projManifest := ⟨some "0.1.0", none, some [("A", "^1.0.0"), ("B", "^1.0.0")], some []⟩

/-- Manifest path of the development dependency `Bd` of `/proj`. -/
def pathBd : String := "/proj/node_modules/Bd/package.json"

/-- Manifest path of the shared package `D` of `/proj`. -/
def pathD : String := "/proj/node_modules/D/package.json"

/-- Layout for the dev/prod precedence scenario: the project declares the
production dependency `A` and the development dependency `Bd`, and both
depend on the shared package `D`. -/
def devPrecEnv : ScanEnv where
  projDir := "/proj"
  resolve := fun dir name =>
    if dir == "/proj" && name == "A" then some pathA
    else if dir == "/proj" && name == "Bd" then some pathBd
    else if dir == "/proj/node_modules/A" && name == "D" then some pathD
    else if dir == "/proj/node_modules/Bd" && name == "D" then some pathD
    else none
  manifest := fun p =>
    if p == pathA then some ⟨some "1.0.0", some "sha-A", some [("D", "^1.0.0")], none⟩
    else if p == pathBd then some ⟨some "2.0.0", some "sha-Bd", some [("D", "^1.0.0")], none⟩
    else if p == pathD then some ⟨some "3.0.0", some "sha-D", none, none⟩
    else none
  projManifest := ⟨some "0.1.0", none, some [("A", "^1.0.0")], some [("Bd", "^2.0.0")]⟩

/-- An empty installed layout: nothing resolves, no manifests exist, and
the project declares no dependencies at all. -/
def emptyScanEnv : ScanEnv where
  projDir := "/proj"
  resolve := fun _ _ => none
  manifest := fun _ => none
  projManifest := ⟨some "0.1.0", none, some [], some []⟩

/-- A raw lock-tree node with a present-but-empty `dependencies` object,
as `{"version": "1.0.0", "dependencies": {}}` parses. -/
def emptyDepsNode : RawNode := .mk [("version", .str "1.0.0")] (some [])

/-- The record the scanner builds for `C` in the classification layout. -/
def recClC : PackageRecord := .mk (some "3.0.0") false none none (some "sha-C")

/-- The record the scanner builds for `X` in the classification layout. -/
def recClX : PackageRecord :=
  .mk (some "4.0.0") false (some [("C", some "3.0.0")]) none (some "sha-X")

/-- The record the scanner builds for `B` in the classification layout:
note its `dependencies` entry for the already-claimed name `C`. -/
def recClB : PackageRecord :=
  .mk (some "2.0.0") false (some [("C", some "3.0.0"), ("X", some "4.0.0")])
    (some [("C", recClC)]) (some "sha-B")

/-- The record the scanner builds for `C` in the diamond layout. -/
def diaRecC : PackageRecord := .mk (some "3.0.0") false none none (some "sha-C")

/-- The record the scanner builds for `D` in the dev/prod layout. -/
def devRecD : PackageRecord := .mk (some "3.0.0") false none none (some "sha-D")

/-- A `DepInfo` resolved to a directory nested inside
`/proj/node_modules/A`. -/
def infoNested : DepInfo :=
  ⟨"/proj/node_modules/A/node_modules/z", some "1.0.0", none, false, none, none⟩

/-- A `DepInfo` resolved to a directory directly under the shared root. -/
def infoShared : DepInfo :=
  ⟨"/proj/node_modules/z", some "1.0.0", none, false, none, none⟩

/-- A shrinkwrap dependencies tree with one package carrying an extra
non-canonical field. -/
def shrinkTree : List (String × RawNode) :=
  [("p", RawNode.mk [("version", JVal.str "1.0.0"), ("extra", JVal.str "x")] none)]

/-- An audit environment with no readable primary lock file and a valid
fallback lock file. -/
def auditEnvShrink : AuditEnv :=
  ⟨fun n => if n == "npm-shrinkwrap.json" then some (some shrinkTree) else none,
   .error .fuelOut⟩

/-- An audit environment with no readable lock file at all and a
succeeding installed-tree scan. -/
def auditEnvScan : AuditEnv :=
  ⟨fun _ => none, .ok [("x", PackageRecord.mk (some "1.0.0") false none none none)]⟩

/-- An audit environment with no readable lock file and a failing scan. -/
def auditEnvFail : AuditEnv :=
  ⟨fun _ => none, .error (.manifestMissing "/nowhere")⟩

/-- Every field kept by `pick` comes from the canonical property list. -/
theorem mem_pickFields {fs : List (String × JVal)} {p : String × JVal}
    (h : p ∈ pickFields fs) : p.1 ∈ LOCKED_DEPENDENCIES_REQUIRED_PROPERTIES := by
  rcases List.mem_filterMap.mp h with ⟨a, ha, hfa⟩
  rcases Option.map_eq_some'.mp hfa with ⟨v, _, heq⟩
  rw [← heq]
  exact ha

/-- `pick` onto the canonical properties is idempotent. -/
theorem pickFields_idem (fs : List (String × JVal)) :
    pickFields (pickFields fs) = pickFields fs := by
  unfold pickFields LOCKED_DEPENDENCIES_REQUIRED_PROPERTIES
  cases hv : fs.lookup "version" <;> cases hd : fs.lookup "dev" <;>
    cases hr : fs.lookup "requires" <;> cases hi : fs.lookup "integrity" <;>
    simp [List.filterMap, hv, hd, hr, hi, List.lookup]

mutual

/-- Applying `filterNode` to its own output changes nothing. -/
theorem filterNode_idem : ∀ n : RawNode, filterNode (filterNode n) = filterNode n
  | .mk fs none => by simp [filterNode, pickFields_idem]
  | .mk fs (some deps) => by simp [filterNode, pickFields_idem, filterTree_idem deps]

/-- Applying `filterTree` to its own output changes nothing. -/
theorem filterTree_idem :
    ∀ t : List (String × RawNode), filterTree (filterTree t) = filterTree t
  | [] => rfl
  | (name, node) :: rest => by
      simp [filterTree, filterNode_idem node, filterTree_idem rest]

end

mutual

/-- Every node produced by `filterNode` carries only canonical fields. -/
theorem filterNode_good : ∀ n : RawNode, goodNode (filterNode n) = true
  | .mk fs none => by
      simp [filterNode, goodNode]
      exact fun a b h => List.mem_append_left _ (mem_pickFields h)
  | .mk fs (some deps) => by
      simp [filterNode, goodNode, filterTree_good deps]
      exact fun a b h => List.mem_append_left _ (mem_pickFields h)

/-- Every node of a `filterTree` output carries only canonical fields. -/
theorem filterTree_good :
    ∀ t : List (String × RawNode), goodTree (filterTree t) = true
  | [] => rfl
  | (name, node) :: rest => by
      simp [filterTree, goodTree, filterNode_good node, filterTree_good rest]

end

mutual

/-- `filterNode` preserves the dependencies skeleton of its input: which
nodes have a `dependencies` property, and with which keys. -/
theorem filterNode_shape : ∀ n : RawNode, shapeOfNode (filterNode n) = shapeOfNode n
  | .mk fs none => by simp [filterNode, shapeOfNode]
  | .mk fs (some deps) => by simp [filterNode, shapeOfNode, filterTree_shape deps]

/-- `filterTree` preserves the dependencies skeleton of its input. -/
theorem filterTree_shape :
    ∀ t : List (String × RawNode), shapeOfTree (filterTree t) = shapeOfTree t
  | [] => rfl
  | (name, node) :: rest => by
      simp [filterTree, shapeOfTree, filterNode_shape node, filterTree_shape rest]

end

mutual

/-- Every `PackageRecord`, at every depth, carries only keys from the
canonical five-field set. -/
theorem goodRec_true : ∀ r : PackageRecord, goodRec r = true
  | .mk v dev req none integ => by
      cases dev <;> cases req <;>
        simp [goodRec, recFieldNames, recToRaw, RawNode.fields, RawNode.deps,
              LOCKED_DEPENDENCIES_REQUIRED_PROPERTIES_WITH_DEPS,
              LOCKED_DEPENDENCIES_REQUIRED_PROPERTIES]
  | .mk v dev req (some ch) integ => by
      cases dev <;> cases req <;>
        simp [goodRec, recFieldNames, recToRaw, RawNode.fields, RawNode.deps,
              LOCKED_DEPENDENCIES_REQUIRED_PROPERTIES_WITH_DEPS,
              LOCKED_DEPENDENCIES_REQUIRED_PROPERTIES, goodRecTree_true ch]

/-- Every record of a `PackageRecord` tree is canonical. -/
theorem goodRecTree_true : ∀ t : List (String × PackageRecord), goodRecTree t = true
  | [] => rfl
  | (_, r) :: rest => by simp [goodRecTree, goodRec_true r, goodRecTree_true rest]

end

/-- C7: the tree filter is idempotent: for every lock tree `T`,
`filter(filter(T)) == filter(T)`. -/
theorem filterTree_idempotent :
    ∀ t : List (String × RawNode), filterTree (filterTree t) = filterTree t :=
  filterTree_idem

/-- C4, counterexample: a lock node whose `dependencies` field is a
present-but-empty object (truthy in JS) is filtered to a node whose
`dependencies` field is again present and empty, so the filter's output
can carry a `dependencies` field with zero children, contradicting the
claimed "present iff at least one child after filtering". -/
theorem filterTree_empty_deps_cex :
    filterTree [("a", emptyDepsNode)] =
      [("a", RawNode.mk [("version", JVal.str "1.0.0")] (some []))] ∧
    RawNode.deps (RawNode.mk [("version", JVal.str "1.0.0")] (some [])) = some [] :=
  ⟨rfl, rfl⟩

/-- C4, amended: for every input lock tree, the tree filter's output
contains at every depth only fields from the canonical five-field set,
and a node's `dependencies` field is present in the output iff the input
node's `dependencies` field is present (truthy), with the same child keys
at every depth; in particular an input node with an empty `dependencies`
object keeps a present-and-empty `dependencies` field. -/
theorem filterTree_fields_and_shape :
    ∀ t : List (String × RawNode),
      goodTree (filterTree t) = true ∧ shapeOfTree (filterTree t) = shapeOfTree t :=
  fun t => ⟨filterTree_good t, filterTree_shape t⟩

/-- C8: every package record appearing in a tree handed off by the system
— a filtered lock tree, or the installed-tree scanner's output — carries,
at every depth, no fields outside
{version, dev, requires, integrity, dependencies}. -/
theorem records_within_canonical_fields :
    (∀ t : List (String × RawNode), goodTree (filterTree t) = true) ∧
    (∀ (E : ScanEnv) (fuel : Nat) (tree : List (String × PackageRecord)),
      scanInstalledDependencies E fuel = .ok tree → goodRecTree tree = true) :=
  ⟨filterTree_good, fun _ _ tree _ => goodRecTree_true tree⟩

/-- Witness for C8 at a concrete input: the scanner's output on the
dev/prod precedence layout is canonical. -/
theorem records_within_canonical_fields_witness :
    goodRecTree [("D", PackageRecord.mk (some "3.0.0") false none none (some "sha-D"))]
      = true :=
  records_within_canonical_fields.2 devPrecEnv 30
    [("D", PackageRecord.mk (some "3.0.0") false none none (some "sha-D"))] rfl

/-- C1: evaluation of the scanner on the end-to-end scenario layout.
With no `devDependencies` field on the project manifest the scan throws a
TypeError at line 189; with an empty `devDependencies` object it returns
the empty mapping, because lines 185-189 discard the records of the
project's direct dependencies — `left-pad`'s record is resolved and
cached (third conjunct) but never written to `topLevelDeps`.  The
specified output `{ "left-pad": { version: "1.3.0", integrity:
"sha1-abc" } }` is not produced in either case. -/
theorem scan_drops_direct_dependency :
    scanInstalledDependencies scanEnvLeftPad 20 =
      .error (.keysOfUndefined "devDependencies") ∧
    scanInstalledDependencies scanEnvLeftPadDevEmpty 20 = .ok [] ∧
    (runScan scanEnvLeftPadDevEmpty 20).map (fun s => s.cache.lookup lpPath) =
      .ok (some ⟨"/proj/node_modules/left-pad", some "1.3.0", some "sha1-abc",
                 false, none, none⟩) :=
  ⟨rfl, rfl, rfl⟩

/-- C2, counterexample: in the classification layout, `C` is promoted to
the top-level set while `X`'s sub-dependencies are classified, and later,
when `B`'s sub-dependencies are classified, the already-claimed name `C`
is *not* dropped: line 158-159 places it in `B`'s local `dependencies`
map, and `B`'s record — with that map inside — then reaches the top-level
result set, so a later resolution of a name already present at top level
does appear in a `dependencies` map of the result. -/
theorem claimed_name_in_local_deps_cex :
    scanInstalledDependencies classifyEnv 30 =
      .ok [("C", recClC), ("X", recClX), ("B", recClB)] ∧
    PackageRecord.dependencies recClB = some [("C", recClC)] :=
  ⟨rfl, rfl⟩

/-- C2, amended: per discovered dependency edge, in this precedence: a
child whose directory lies inside its parent's directory (string-prefix
containment) goes to the parent's `dependencies` and never to top level;
otherwise a child satisfying `isTopLevelDep` whose name is unclaimed is
placed at top level exactly once; otherwise — in particular for any name
already claimed at top level — the child is placed in the parent's local
`dependencies` map whenever its directory has the project directory as a
prefix, and is dropped only when it does not. -/
theorem classifyOne_cases (E : ScanEnv) (depDir : String)
    (acc tl : List (String × PackageRecord)) (n : String) (info : DepInfo) :
    (isLocalDep info.packageDir depDir = true →
      classifyOne E depDir acc tl n info = (acc ++ [(n, pickDepInfo info)], tl)) ∧
    (isLocalDep info.packageDir depDir = false →
      isTopLevelDep E info.packageDir = true → tl.lookup n = none →
      classifyOne E depDir acc tl n info = (acc, tl ++ [(n, pickDepInfo info)])) ∧
    (∀ r : PackageRecord, isLocalDep info.packageDir depDir = false →
      tl.lookup n = some r → strIsPre E.projDir info.packageDir = true →
      classifyOne E depDir acc tl n info = (acc ++ [(n, pickDepInfo info)], tl)) ∧
    (∀ r : PackageRecord, isLocalDep info.packageDir depDir = false →
      tl.lookup n = some r → strIsPre E.projDir info.packageDir = false →
      classifyOne E depDir acc tl n info = (acc, tl)) ∧
    (isLocalDep info.packageDir depDir = false →
      isTopLevelDep E info.packageDir = false →
      strIsPre E.projDir info.packageDir = true →
      classifyOne E depDir acc tl n info = (acc ++ [(n, pickDepInfo info)], tl)) := by
  refine ⟨?_, ?_, ?_, ?_, ?_⟩ <;> intros <;> simp [classifyOne, *]

/-- Witness for the amended C2 at concrete inputs: a nested child goes to
the parent's local map, and an unclaimed shared-root child is promoted. -/
theorem classifyOne_cases_witness :
    classifyOne scanEnvLeftPad "/proj/node_modules/A" [] [] "z" infoNested =
      ([("z", pickDepInfo infoNested)], []) ∧
    classifyOne scanEnvLeftPad "/proj/node_modules/A" [] [] "z" infoShared =
      ([], [("z", pickDepInfo infoShared)]) :=
  ⟨(classifyOne_cases scanEnvLeftPad "/proj/node_modules/A" [] [] "z" infoNested).1 rfl,
   (classifyOne_cases scanEnvLeftPad "/proj/node_modules/A" [] [] "z" infoShared).2.1
     rfl rfl rfl⟩

/-- C5: on the diamond layout, `collectDepPackageInfo` runs for `C`'s
manifest path exactly once (the second resolution is a cache hit), and
every reference to `C` in the final state — the top-level record, the
copy inside `B`'s cached local `dependencies`, and the version in `A`'s
cached `requires` — carries the identical content. -/
theorem scan_diamond_single_resolution :
    (runScan diamondEnv 30).map (fun s => s.collectLog) =
      .ok [pathA, pathC, pathB] ∧
    (runScan diamondEnv 30).map (fun s => s.collectLog.count pathC) = .ok 1 ∧
    scanInstalledDependencies diamondEnv 30 = .ok [("C", diaRecC)] ∧
    (runScan diamondEnv 30).map
        (fun s => (s.cache.lookup pathB).map (fun i => i.dependencies)) =
      .ok (some (some [("C", diaRecC)])) ∧
    (runScan diamondEnv 30).map
        (fun s => (s.cache.lookup pathA).map (fun i => i.requires)) =
      .ok (some (some [("C", some "3.0.0")])) :=
  ⟨rfl, rfl, rfl, rfl, rfl⟩

/-- C6: the development phase runs only after the production phase has
completed — `runScan`'s result is the dev-phase run started from the
completed prod-phase state — and on the concrete layout where the
production dependency `A` and the development dependency `Bd` both
require `D`, the production path is resolved first (see the collect log)
and `D`'s record carries `dev = false` everywhere, including the copy in
`Bd`'s own (dev-marked) cached info. -/
theorem scan_prod_phase_before_dev_phase :
    (∀ (E : ScanEnv) (fuel : Nat) (deps ddeps : List (String × String))
        (s1 : ScanState),
      E.projManifest.dependencies = some deps →
      E.projManifest.devDependencies = some ddeps →
      scanPhase E false fuel (deps.map Prod.fst) initScanState = .ok s1 →
      runScan E fuel = scanPhase E true fuel (ddeps.map Prod.fst) s1) ∧
    (scanInstalledDependencies devPrecEnv 30 = .ok [("D", devRecD)] ∧
     PackageRecord.dev devRecD = false ∧
     (runScan devPrecEnv 30).map (fun s => s.collectLog) =
       .ok [pathA, pathD, pathBd] ∧
     (runScan devPrecEnv 30).map
         (fun s => (s.cache.lookup pathBd).map (fun i => (i.dev, i.dependencies))) =
       .ok (some (true, some [("D", devRecD)]))) := by
  constructor
  · intro E fuel deps ddeps s1 h1 h2 h3
    unfold runScan
    simp only [h1, h3, h2]
    cases scanPhase E true fuel (ddeps.map Prod.fst) s1 <;> rfl
  · exact ⟨rfl, rfl, rfl, rfl⟩

/-- Witness for C6 at a concrete input: on the empty layout the scan is
the dev phase run from the (trivially completed) prod phase's state. -/
theorem scan_prod_phase_before_dev_phase_witness :
    runScan emptyScanEnv 5 = scanPhase emptyScanEnv true 5 [] initScanState :=
  scan_prod_phase_before_dev_phase.1 emptyScanEnv 5 [] [] initScanState rfl rfl rfl

/-- C3: the lock-source fallback chain.  If the primary lock file fails
to load but the fallback parses, the result is the filtered fallback
tree; if neither loads, the result is the scanner's output; if the
scanner also fails, the single error names both lock-file filenames. -/
theorem getAllDependencies_source_order :
    (∀ (A : AuditEnv) (d : Option (List (String × RawNode))),
      A.lockFile "package-lock.json" = none →
      A.lockFile "npm-shrinkwrap.json" = some d →
      getAllDependencies A = .ok (filterTree (d.getD []))) ∧
    (∀ (A : AuditEnv) (tree : List (String × PackageRecord)),
      A.lockFile "package-lock.json" = none →
      A.lockFile "npm-shrinkwrap.json" = none →
      A.scanOutcome = .ok tree →
      getAllDependencies A = .ok (recTreeToRaw tree)) ∧
    (∀ (A : AuditEnv) (e : ScanErr),
      A.lockFile "package-lock.json" = none →
      A.lockFile "npm-shrinkwrap.json" = none →
      A.scanOutcome = .error e →
      getAllDependencies A = .error lockErrorMessage) ∧
    strContains lockErrorMessage "package-lock.json" = true ∧
    strContains lockErrorMessage "npm-shrinkwrap.json" = true := by
  refine ⟨?_, ?_, ?_, rfl, rfl⟩
  · intro A d h1 h2
    simp [getAllDependencies, getNpmLockDependencies, h1, h2]
  · intro A tree h1 h2 h3
    simp [getAllDependencies, getNpmLockDependencies, h1, h2, h3]
  · intro A e h1 h2 h3
    simp [getAllDependencies, getNpmLockDependencies, h1, h2, h3]

/-- Witness for C3 at concrete inputs: each of the three fallback stages
on a concrete audit environment. -/
theorem getAllDependencies_source_order_witness :
    getAllDependencies auditEnvShrink = .ok (filterTree shrinkTree) ∧
    getAllDependencies auditEnvScan =
      .ok (recTreeToRaw [("x", PackageRecord.mk (some "1.0.0") false none none none)]) ∧
    getAllDependencies auditEnvFail = .error lockErrorMessage :=
  ⟨getAllDependencies_source_order.1 auditEnvShrink (some shrinkTree) rfl rfl,
   getAllDependencies_source_order.2.1 auditEnvScan
     [("x", PackageRecord.mk (some "1.0.0") false none none none)] rfl rfl rfl,
   getAllDependencies_source_order.2.2.1 auditEnvFail (.manifestMissing "/nowhere")
     rfl rfl rfl⟩

/-- Lookup of an association list at its head key. -/
theorem lookup_cons_self {β : Type} (a : String) (b : β) (t : List (String × β)) :
    List.lookup a ((a, b) :: t) = some b := by
  rw [List.lookup, show (a == a) = true from beq_self_eq_true a]

/-- Lookup of an association list skips a head with a different key. -/
theorem lookup_cons_of_ne {β : Type} {n a : String} (b : β) (t : List (String × β))
    (h : n ≠ a) : List.lookup n ((a, b) :: t) = List.lookup n t := by
  rw [List.lookup, show (n == a) = false from beq_eq_false_iff_ne.mpr h]

/-- Overwriting a key's value in place yields that value on lookup. -/
theorem lookup_map_overwrite (obj : List (String × String)) (k v : String) :
    (obj.map (fun p => if p.1 == k then (p.1, v) else p)).lookup k =
      if (obj.lookup k).isSome then some v else none := by
  induction obj with
  | nil => simp
  | cons a t ih =>
      obtain ⟨a1, a2⟩ := a
      by_cases h : a1 = k
      · subst h
        rw [List.map_cons,
            show (if ((a1, a2).1 == a1) then ((a1, a2).1, v) else (a1, a2)) = (a1, v) from
              by simp,
            lookup_cons_self, lookup_cons_self]
        simp
      · rw [List.map_cons,
            show (if ((a1, a2).1 == k) then ((a1, a2).1, v) else (a1, a2)) = (a1, a2) from
              by simp [h],
            lookup_cons_of_ne _ _ (Ne.symm h), lookup_cons_of_ne _ _ (Ne.symm h), ih]

/-- Overwriting a key's value in place leaves other keys' lookups alone. -/
theorem lookup_map_overwrite_ne (obj : List (String × String)) (k v n : String)
    (h : n ≠ k) :
    (obj.map (fun p => if p.1 == k then (p.1, v) else p)).lookup n = obj.lookup n := by
  induction obj with
  | nil => rfl
  | cons a t ih =>
      obtain ⟨a1, a2⟩ := a
      by_cases h1 : a1 = k
      · rw [List.map_cons,
            show (if ((a1, a2).1 == k) then ((a1, a2).1, v) else (a1, a2)) = (a1, v) from
              by simp [h1],
            lookup_cons_of_ne _ _ (h1 ▸ h), lookup_cons_of_ne _ _ (h1 ▸ h), ih]
      · by_cases h2 : n = a1
        · subst h2
          rw [List.map_cons,
              show (if ((n, a2).1 == k) then ((n, a2).1, v) else (n, a2)) = (n, a2) from
                by simp [h1],
              lookup_cons_self, lookup_cons_self]
        · rw [List.map_cons,
              show (if ((a1, a2).1 == k) then ((a1, a2).1, v) else (a1, a2)) = (a1, a2) from
                by simp [h1],
              lookup_cons_of_ne _ _ h2, lookup_cons_of_ne _ _ h2, ih]

/-- Lookup distributes over list append, preferring the left list. -/
theorem lookup_append (l1 l2 : List (String × String)) (k : String) :
    (l1 ++ l2).lookup k = (l1.lookup k).or (l2.lookup k) := by
  induction l1 with
  | nil => simp
  | cons a t ih =>
      obtain ⟨a1, a2⟩ := a
      by_cases h : k = a1
      · subst h
        rw [List.cons_append, lookup_cons_self, lookup_cons_self, Option.or]
      · rw [List.cons_append, lookup_cons_of_ne _ _ h, lookup_cons_of_ne _ _ h, ih]

/-- After one `Object.assign` property write, the written key maps to the
written value. -/
theorem assignOne_lookup_self (obj : List (String × String)) (k v : String) :
    (assignOne obj (k, v)).lookup k = some v := by
  unfold assignOne
  by_cases h : (obj.lookup k).isSome
  · rw [if_pos h, lookup_map_overwrite, if_pos h]
  · rw [if_neg h, lookup_append]
    rw [Option.not_isSome_iff_eq_none] at h
    rw [h, Option.none_or, lookup_cons_self]

/-- One `Object.assign` property write leaves other keys alone. -/
theorem assignOne_lookup_ne (obj : List (String × String)) (kv : String × String)
    (n : String) (h : n ≠ kv.1) : (assignOne obj kv).lookup n = obj.lookup n := by
  unfold assignOne
  by_cases hs : (obj.lookup kv.1).isSome
  · rw [if_pos hs]
    exact lookup_map_overwrite_ne obj kv.1 kv.2 n h
  · rw [if_neg hs, lookup_append]
    obtain ⟨k, v⟩ := kv
    rw [show List.lookup n [(k, v)] = none from by
      rw [lookup_cons_of_ne _ _ h]; rfl]
    cases obj.lookup n <;> rfl

/-- Assigning properties none of which has key `n` leaves `n`'s lookup
alone. -/
theorem objectAssign_lookup_notmem (base upd : List (String × String)) (n : String)
    (h : ∀ p ∈ upd, p.1 ≠ n) :
    (objectAssign base upd).lookup n = base.lookup n := by
  induction upd generalizing base with
  | nil => rfl
  | cons kv t ih =>
      rw [objectAssign, List.foldl_cons,
          show List.foldl assignOne (assignOne base kv) t =
            objectAssign (assignOne base kv) t from rfl,
          ih (assignOne base kv) (fun p hp => h p (List.mem_cons_of_mem _ hp))]
      exact assignOne_lookup_ne base kv n (Ne.symm (h kv (List.mem_cons_self _ _)))

/-- After `Object.assign`, every key of the update object (with JS
objects' duplicate-free keys) maps to the update's value, whatever the
base object held. -/
theorem objectAssign_lookup_of_nodup (base upd : List (String × String)) (n v : String)
    (hnd : (upd.map Prod.fst).Nodup) (h : upd.lookup n = some v) :
    (objectAssign base upd).lookup n = some v := by
  induction upd generalizing base with
  | nil => exact absurd h (by simp)
  | cons kv t ih =>
      obtain ⟨k, w⟩ := kv
      rw [objectAssign, List.foldl_cons,
          show List.foldl assignOne (assignOne base (k, w)) t =
            objectAssign (assignOne base (k, w)) t from rfl]
      by_cases hk : n = k
      · subst hk
        rw [lookup_cons_self] at h
        injection h with h
        subst h
        have hnotin : ∀ p ∈ t, p.1 ≠ n := by
          intro p hp hcon
          rw [List.map_cons, List.nodup_cons] at hnd
          exact hnd.1 (by simpa [hcon] using List.mem_map_of_mem Prod.fst hp)
        rw [objectAssign_lookup_notmem _ _ _ hnotin]
        exact assignOne_lookup_self base n _
      · rw [lookup_cons_of_ne _ _ hk] at h
        rw [List.map_cons, List.nodup_cons] at hnd
        exact ih (assignOne base (k, w)) hnd.2 h

/-- C9: in the audit payload's `requires` map, built as
`Object.assign({}, devDependencies, dependencies)`, every name declared in
the project's production `dependencies` maps to its production version
constraint — in particular a name also present in `devDependencies` keeps
the production constraint, because `dependencies` is assigned last. -/
theorem auditRequires_production_wins :
    ∀ (devDependencies : Option (List (String × String)))
      (deps : List (String × String)) (n v : String),
      (deps.map Prod.fst).Nodup → deps.lookup n = some v →
      (auditRequires devDependencies (some deps)).lookup n = some v := by
  intro dd deps n v hnd h
  exact objectAssign_lookup_of_nodup _ _ _ _ hnd h

/-- Witness for C9 at a concrete input: `b` appears in both
`devDependencies` (at `2.0.0`) and `dependencies` (at `9.0.0`); the
merged `requires` keeps the production constraint `9.0.0`. -/
theorem auditRequires_production_wins_witness :
    (auditRequires (some [("a", "1.0.0"), ("b", "2.0.0")])
        (some [("b", "9.0.0"), ("c", "3.0.0")])).lookup "b" = some "9.0.0" :=
  auditRequires_production_wins (some [("a", "1.0.0"), ("b", "2.0.0")])
    [("b", "9.0.0"), ("c", "3.0.0")] "b" "9.0.0" (by decide) rfl

/-- An error outcome that is not fuel exhaustion stays so at any result
type. -/
theorem error_not_fuelOut {α β : Type} {e : ScanErr}
    (h : isFuelOut (Except.error e : Except ScanErr α) = false) :
    isFuelOut (Except.error e : Except ScanErr β) = false := by
  cases e <;> simp [isFuelOut] at h ⊢

mutual

/-- Under an acyclicity rank for the resolution graph, `getDepPackageInfo`
never exhausts its fuel when the fuel exceeds the measure of every path
the requested name can resolve to. -/
theorem getDep_not_fuelOut (E : ScanEnv) (dev : Bool) (rank : String → Nat) (W : Nat)
    (He : ∀ path m, E.manifest path = some m → ∀ pr ∈ m.dependencies.getD [],
        ∀ q, E.resolve (dirname path) pr.1 = some q → rank q < rank path)
    (Hw : ∀ path m, E.manifest path = some m → (m.dependencies.getD []).length ≤ W) :
    ∀ fuel pd n s, 0 < fuel →
      (∀ q, E.resolve pd n = some q → (W + 3) * (rank q + 1) < fuel) →
      isFuelOut (getDepPackageInfo E dev fuel pd n s) = false
  | 0 => fun pd n s h0 _ => absurd h0 (by omega)
  | fuel + 1 => fun pd n s h0 hq => by
      rw [getDepPackageInfo]
      cases hr : E.resolve pd n with
      | none => simp [hr, isFuelOut]
      | some q =>
        cases hc : s.cache.lookup q with
        | some info => simp [hr, hc, isFuelOut]
        | none =>
          have hcol := collect_not_fuelOut E dev rank W He Hw fuel q s
            (by have := hq q hr; omega)
          cases hcl : collectDepPackageInfo E dev fuel q s with
          | error e =>
              rw [hcl] at hcol
              simp only [hr, hc, hcl]
              exact error_not_fuelOut hcol
          | ok p => simp [hr, hc, hcl, isFuelOut]

/-- Under an acyclicity rank, `collectDepPackageInfo` never exhausts its
fuel when the fuel is at least the measure of the collected path. -/
theorem collect_not_fuelOut (E : ScanEnv) (dev : Bool) (rank : String → Nat) (W : Nat)
    (He : ∀ path m, E.manifest path = some m → ∀ pr ∈ m.dependencies.getD [],
        ∀ q, E.resolve (dirname path) pr.1 = some q → rank q < rank path)
    (Hw : ∀ path m, E.manifest path = some m → (m.dependencies.getD []).length ≤ W) :
    ∀ fuel path s, (W + 3) * (rank path + 1) ≤ fuel →
      isFuelOut (collectDepPackageInfo E dev fuel path s) = false
  | 0 => fun path s hμ => by
      have := Nat.mul_pos (show 0 < W + 3 by omega) (show 0 < rank path + 1 by omega)
      omega
  | fuel + 1 => fun path s hμ => by
      rw [collectDepPackageInfo]
      cases hm : E.manifest path with
      | none => simp [hm, isFuelOut]
      | some m =>
        cases hd : m.dependencies with
        | none => simp [hm, hd, isFuelOut]
        | some subDepList =>
          have hlen : subDepList.length ≤ W := by
            have := Hw path m hm
            rw [hd] at this
            simpa using this
          have hmul : (W + 3) * (rank path + 1) = (W + 3) * rank path + (W + 3) :=
            Nat.mul_succ _ _
          have hrs := resolveSubDeps_not_fuelOut E dev rank W He Hw fuel
            (dirname path) (subDepList.map Prod.fst)
            { s with collectLog := s.collectLog ++ [path] }
            (by simp only [List.length_map]; omega)
            (by
              intro n hn q hq
              rcases List.mem_map.mp hn with ⟨pr, hpr, hpr1⟩
              have hrank := He path m hm pr (by rw [hd]; simpa using hpr) q
                (by rw [hpr1]; exact hq)
              have h2 : (W + 3) * (rank q + 1) ≤ (W + 3) * rank path :=
                Nat.mul_le_mul_left _ (by omega)
              simp only [List.length_map]
              omega)
          cases hrsr : resolveSubDeps E dev fuel (dirname path) (subDepList.map Prod.fst)
              { s with collectLog := s.collectLog ++ [path] } with
          | error e =>
              rw [hrsr] at hrs
              simp only [hm, hd, hrsr]
              exact error_not_fuelOut hrs
          | ok p => simp [hm, hd, hrsr, isFuelOut]

/-- Under an acyclicity rank, resolving a sub-dependency list never
exhausts the fuel when the fuel covers each child's measure plus the
list's length. -/
theorem resolveSubDeps_not_fuelOut (E : ScanEnv) (dev : Bool) (rank : String → Nat)
    (W : Nat)
    (He : ∀ path m, E.manifest path = some m → ∀ pr ∈ m.dependencies.getD [],
        ∀ q, E.resolve (dirname path) pr.1 = some q → rank q < rank path)
    (Hw : ∀ path m, E.manifest path = some m → (m.dependencies.getD []).length ≤ W) :
    ∀ fuel dir names s, names.length < fuel →
      (∀ n ∈ names, ∀ q, E.resolve dir n = some q →
        (W + 3) * (rank q + 1) + names.length < fuel) →
      isFuelOut (resolveSubDeps E dev fuel dir names s) = false
  | 0 => fun dir names s h0 _ => absurd h0 (by omega)
  | fuel + 1 => fun dir names s h0 hq => by
      cases names with
      | nil => rw [resolveSubDeps]; simp [isFuelOut]
      | cons n rest =>
        rw [resolveSubDeps]
        have hget := getDep_not_fuelOut E dev rank W He Hw fuel dir n s
          (by simp only [List.length_cons] at h0; omega)
          (by
            intro q hr
            have := hq n (List.mem_cons_self _ _) q hr
            simp only [List.length_cons] at this
            omega)
        cases hg : getDepPackageInfo E dev fuel dir n s with
        | error e =>
            rw [hg] at hget
            simp only [hg]
            exact error_not_fuelOut hget
        | ok p =>
          obtain ⟨info, s1⟩ := p
          have hrest := resolveSubDeps_not_fuelOut E dev rank W He Hw fuel dir rest s1
            (by simp only [List.length_cons] at h0; omega)
            (by
              intro n1 hn1 q hr
              have := hq n1 (List.mem_cons_of_mem _ hn1) q hr
              simp only [List.length_cons] at this
              omega)
          cases hrs : resolveSubDeps E dev fuel dir rest s1 with
          | error e =>
              rw [hrs] at hrest
              simp only [hg, hrs]
              exact error_not_fuelOut hrest
          | ok p2 => simp [hg, hrs, isFuelOut]

end



/-- Under an acyclicity rank, a whole scan phase never exhausts its fuel
when the fuel exceeds the measure of every path a root name resolves
to. -/
theorem scanPhase_not_fuelOut (E : ScanEnv) (dev : Bool) (rank : String → Nat) (W : Nat)
    (He : ∀ path m, E.manifest path = some m → ∀ pr ∈ m.dependencies.getD [],
        ∀ q, E.resolve (dirname path) pr.1 = some q → rank q < rank path)
    (Hw : ∀ path m, E.manifest path = some m → (m.dependencies.getD []).length ≤ W) :
    ∀ (names : List String) (fuel : Nat) (s : ScanState), 0 < fuel →
      (∀ n ∈ names, ∀ q, E.resolve E.projDir n = some q →
        (W + 3) * (rank q + 1) < fuel) →
      isFuelOut (scanPhase E dev fuel names s) = false := by
  intro names
  induction names with
  | nil => intro fuel s h0 _; simp [scanPhase, isFuelOut]
  | cons n rest ih =>
      intro fuel s h0 hq
      rw [scanPhase]
      have hget := getDep_not_fuelOut E dev rank W He Hw fuel E.projDir n s h0
        (hq n (List.mem_cons_self _ _))
      cases hg : getDepPackageInfo E dev fuel E.projDir n s with
      | error e =>
          rw [hg] at hget
          simp only [hg]
          exact error_not_fuelOut hget
      | ok p =>
          obtain ⟨info, s1⟩ := p
          simp only [hg]
          exact ih fuel s1 h0 (fun n1 hn1 => hq n1 (List.mem_cons_of_mem _ hn1))

/-- C10: for every installed layout whose manifest-to-manifest resolution
graph is acyclic — witnessed by a rank function `rank` that strictly
decreases along every resolution edge, with resolvable ranks bounded by
`R` and dependency-list widths bounded by `W` — the scan terminates: with
fuel `(W+3)*(R+1)+1` it never returns the fuel-exhaustion marker that
models JS non-termination (it returns a result or a domain error
instead). -/
theorem scan_terminates_on_acyclic_layout (E : ScanEnv) (rank : String → Nat) (W R : Nat)
    (He : ∀ path m, E.manifest path = some m → ∀ pr ∈ m.dependencies.getD [],
        ∀ q, E.resolve (dirname path) pr.1 = some q → rank q < rank path)
    (Hw : ∀ path m, E.manifest path = some m → (m.dependencies.getD []).length ≤ W)
    (Hb : ∀ dir n q, E.resolve dir n = some q → rank q < R) :
    isFuelOut (scanInstalledDependencies E ((W + 3) * (R + 1) + 1)) = false := by
  have hF : 0 < (W + 3) * (R + 1) + 1 := by omega
  have hlt : ∀ n q, E.resolve E.projDir n = some q →
      (W + 3) * (rank q + 1) < (W + 3) * (R + 1) + 1 := by
    intro n q h
    have h1 := Hb _ _ _ h
    have h2 : (W + 3) * (rank q + 1) ≤ (W + 3) * R :=
      Nat.mul_le_mul_left _ (by omega)
    have h3 : (W + 3) * (R + 1) = (W + 3) * R + (W + 3) := Nat.mul_succ _ _
    omega
  have hrun : isFuelOut (runScan E ((W + 3) * (R + 1) + 1)) = false := by
    rw [runScan]
    cases hd : E.projManifest.dependencies with
    | none => simp [isFuelOut]
    | some deps =>
        have hp1 := scanPhase_not_fuelOut E false rank W He Hw (deps.map Prod.fst)
          ((W + 3) * (R + 1) + 1) initScanState hF (fun n _ q hq => hlt n q hq)
        cases h1 : scanPhase E false ((W + 3) * (R + 1) + 1) (deps.map Prod.fst)
            initScanState with
        | error e =>
            rw [h1] at hp1
            simp only [h1]
            exact error_not_fuelOut hp1
        | ok s1 =>
            simp only [h1]
            cases hdd : E.projManifest.devDependencies with
            | none => simp [isFuelOut]
            | some ddeps =>
                have hp2 := scanPhase_not_fuelOut E true rank W He Hw (ddeps.map Prod.fst)
                  ((W + 3) * (R + 1) + 1) s1 hF (fun n _ q hq => hlt n q hq)
                cases h2 : scanPhase E true ((W + 3) * (R + 1) + 1) (ddeps.map Prod.fst)
                    s1 with
                | error e =>
                    rw [h2] at hp2
                    simp only [h2]
                    exact error_not_fuelOut hp2
                | ok s2 => simp [h2, isFuelOut]
  rw [scanInstalledDependencies]
  cases hr : runScan E ((W + 3) * (R + 1) + 1) with
  | error e =>
      rw [hr] at hrun
      simp only [hr]
      exact error_not_fuelOut hrun
  | ok s => simp [hr, isFuelOut]

/-- Witness for C10 at a concrete input: the empty layout, with the zero
rank function and zero bounds. -/
theorem scan_terminates_on_acyclic_layout_witness :
    isFuelOut (scanInstalledDependencies emptyScanEnv ((0 + 3) * (0 + 1) + 1)) = false :=
  scan_terminates_on_acyclic_layout emptyScanEnv (fun _ => 0) 0 0
    (fun _ _ hm => absurd hm (fun h => Option.noConfusion h))
    (fun _ _ hm => absurd hm (fun h => Option.noConfusion h))
    (fun _ _ _ hm => absurd hm (fun h => Option.noConfusion h))

end NpmAuditor
